import Mathlib

/-!
Verification development for the Runsheet temporal ingestion / upsert engine
and its frontend glue.  The backend Python implementation (`data_seeder.py`,
`main.py`) is not part of the checked-in sources, so the ingestion engine is
modelled from the specification; the sign-in handler and the `ApiService`
request wrapper are embedded from the TypeScript sources.
-/

namespace Runsheet

/-- Polymorphic first-match lookup in an association list keyed by strings,
mirroring how a document id or a CSV field is looked up. -/
def lookupKey {α : Type} : List (String × α) → String → Option α
  | [], _ => none
  | (k, v) :: t, key => if k = key then some v else lookupKey t key

/-- Value of a decimal digit character, `none` on a non-digit. -/
def digitVal (c : Char) : Option Nat :=
  if c.isDigit then some (c.toNat - 48) else none

/-- Modelled from the spec: `operational_time` is an `HH:MM` 24-hour string
"parsed as a same-day clock value".  Returns minutes since midnight, `none`
on a malformed string. -/
def parseClock (s : String) : Option Nat :=
  match s.data with
  | [h1, h2, c, m1, m2] =>
    if c = ':' then
      match digitVal h1, digitVal h2, digitVal m1, digitVal m2 with
      | some a, some b, some d, some e =>
        if 10 * a + b < 24 ∧ 10 * d + e < 60 then
          some ((10 * a + b) * 60 + (10 * d + e))
        else none
      | _, _, _, _ => none
    else none
  | _ => none

/-- The Temporal Envelope attached to every document: `batch_id`,
`operational_time` (business clock, possibly absent), and the wall-clock
`ingestion_timestamp` (modelled as a natural number). `data_version` lives
on the stored `Record`, since only the Upsert Resolver assigns it. -/
structure Envelope where
  batch_id : String
  operational_time : Option String
  ingestion_timestamp : Nat
deriving DecidableEq, Repr

/-- A stored Record: opaque domain fields (canonical field name to raw value),
its temporal envelope, and the resolver-assigned `data_version`. -/
structure Record where
  fields : List (String × String)
  envelope : Envelope
  data_version : Nat
deriving DecidableEq, Repr

/-- The per-domain-type record store: natural key to current Record. -/
abbrev RecordStore := List (String × Record)

/-- The envelope clock: `operational_time` parsed as a same-day clock value. -/
def clockOf (e : Envelope) : Option Nat :=
  match e.operational_time with
  | some s => parseClock s
  | none => none

/-- Modelled from the spec: the recency ordering rule of the Upsert Resolver,
"primarily `operational_time` parsed as a same-day clock value; ties or
absent `operational_time` fall back to `ingestion_timestamp`".  `true` iff
`incoming` is strictly newer than `stored`. -/
def newerThan (incoming stored : Envelope) : Bool :=
  match clockOf incoming, clockOf stored with
  | some a, some b =>
    if a = b then decide (stored.ingestion_timestamp < incoming.ingestion_timestamp)
    else decide (b < a)
  | _, _ => decide (stored.ingestion_timestamp < incoming.ingestion_timestamp)

/-- Look up the current Record under a natural key. -/
def findRec (s : RecordStore) (key : String) : Option Record :=
  lookupKey s key

/-- Write a Record under a natural key, superseding the current one in place
(appending when the key is fresh). -/
def setRec : RecordStore → String → Record → RecordStore
  | [], key, r => [(key, r)]
  | (k, r0) :: t, key, r => if k = key then (key, r) :: t else (k, r0) :: setRec t key r

/-- Outcome of one upsert: "inserted", "updated", "skipped (stale)", or the
content-equality no-op skip. -/
inductive UpsertResult where
  | inserted
  | updated
  | skippedStale
  | skippedNoop
deriving DecidableEq, Repr

/-- Modelled from the spec: the Upsert Resolver (the missing backend
`upsert_batch_data`).  No current Record: insert with `data_version = 1`.
Otherwise compare recency by the ordering rule: not strictly newer means
discard with "skipped (stale)"; strictly newer but content-equal domain
fields means no version bump (idempotency short-circuit); strictly newer
with changed fields means write `data_version = stored.data_version + 1`. -/
def upsertRecord (s : RecordStore) (key : String) (f : List (String × String))
    (e : Envelope) : RecordStore × UpsertResult :=
  match findRec s key with
  | none => (setRec s key ⟨f, e, 1⟩, .inserted)
  | some r =>
    if newerThan e r.envelope then
      if r.fields = f then (s, .skippedNoop)
      else (setRec s key ⟨f, e, r.data_version + 1⟩, .updated)
    else (s, .skippedStale)

/-- Apply one batch of rows (key, domain fields) sharing a single `batch_id`,
`operational_time` and ingestion time to a record store. -/
def applyRows (s : RecordStore) (rows : List (String × List (String × String)))
    (b ot : String) (t : Nat) : RecordStore :=
  rows.foldl (fun st row => (upsertRecord st row.1 row.2 ⟨b, some ot, t⟩).1) s

/-- Record stores reachable from the empty store by upserts. -/
inductive ReachableR : RecordStore → Prop where
  | empty : ReachableR []
  | step (s : RecordStore) (k : String) (f : List (String × String)) (e : Envelope) :
      ReachableR s → ReachableR (upsertRecord s k f e).1

/-! ### Domain types, row parsing and the batch coordinator -/

/-- The four domain types of the upload pipeline. -/
inductive DomainType where
  | fleet
  | orders
  | inventory
  | support
deriving DecidableEq, Repr

/-- The full Record store, one sub-store per domain type (separate
Elasticsearch indices). -/
structure Store where
  fleet : RecordStore
  orders : RecordStore
  inventory : RecordStore
  support : RecordStore
deriving DecidableEq, Repr

def emptyStore : Store := ⟨[], [], [], []⟩

def Store.get (st : Store) : DomainType → RecordStore
  | .fleet => st.fleet
  | .orders => st.orders
  | .inventory => st.inventory
  | .support => st.support

def Store.set (st : Store) : DomainType → RecordStore → Store
  | .fleet, rs => { st with fleet := rs }
  | .orders, rs => { st with orders := rs }
  | .inventory, rs => { st with inventory := rs }
  | .support, rs => { st with support := rs }

/-- The natural-key field of each domain type. -/
def keyField : DomainType → String
  | .orders => "order_id"
  | .fleet => "truck_id"
  | .inventory => "item_id"
  | .support => "ticket_id"

/-- Modelled from the spec: required fields per domain type (§4.1 of the
spec and the DataUpload format guidelines). -/
def requiredFields : DomainType → List String
  | .orders => ["order_id", "customer", "region", "status", "value", "items"]
  | .fleet => ["truck_id", "driver", "status", "route", "location"]
  | .inventory => ["item_id", "name", "category", "quantity", "unit", "location", "status"]
  | .support => ["ticket_id", "customer", "issue", "description", "priority", "status"]

/-- Fields whose raw value must parse as a number. -/
def numericFields : DomainType → List String
  | .orders => ["value"]
  | .inventory => ["quantity"]
  | _ => []

/-- The error taxonomy of the ingestion pipeline (row validation and period
labels). -/
inductive ValidationError where
  | missingField (field : String) (rowIndex : Nat)
  | malformedField (field : String) (rawValue : String)
  | unknownPeriod (label : String)
deriving DecidableEq, Repr

/-- Parse a nonempty all-digit string as a natural number, `none` on a
malformed numeric field. -/
def parseNatStr (s : String) : Option Nat :=
  if s.data ≠ [] ∧ s.data.all Char.isDigit then
    some (s.data.foldl (fun n c => 10 * n + (c.toNat - 48)) 0)
  else none

/-- First missing required field of a row, as a `ValidationError` naming the
field and the row index. -/
def firstMissing (row : List (String × String)) (idx : Nat) :
    List String → Option ValidationError
  | [] => none
  | f :: rest =>
    match lookupKey row f with
    | none => some (.missingField f idx)
    | some _ => firstMissing row idx rest

/-- First malformed numeric field of a row, as a `ValidationError` naming the
offending field and its raw value. -/
def firstMalformed (row : List (String × String)) :
    List String → Option ValidationError
  | [] => none
  | f :: rest =>
    match lookupKey row f with
    | none => firstMalformed row rest
    | some v => if parseNatStr v = none then some (.malformedField f v) else firstMalformed row rest

/-- A normalized document: the natural key plus the row's field mapping. -/
structure NormalizedDoc where
  key : String
  fields : List (String × String)
deriving DecidableEq, Repr

/-- Modelled from the spec: the Row Parser (backend
`convert_csv_row_to_document`, not in the sources).  A raw row either
normalizes or fails with a `ValidationError`: a missing required field names
the field and the row index; a malformed numeric field names the field and
its raw value. -/
def parseRow (dt : DomainType) (idx : Nat) (row : List (String × String)) :
    Except ValidationError NormalizedDoc :=
  match firstMissing row idx (requiredFields dt) with
  | some e => .error e
  | none =>
    match firstMalformed row (numericFields dt) with
    | some e => .error e
    | none =>
      match lookupKey row (keyField dt) with
      | some k => .ok ⟨k, row⟩
      | none => .error (.missingField (keyField dt) idx)

/-- Per-row parsing of a batch starting at a given row index: each row gets
its own success/failure result, so one failure never aborts the siblings. -/
def parseRowsFrom (dt : DomainType) (idx : Nat) :
    List (List (String × String)) → List (Except ValidationError NormalizedDoc)
  | [] => []
  | row :: rest => parseRow dt idx row :: parseRowsFrom dt (idx + 1) rest

def parseRows (dt : DomainType) (rows : List (List (String × String))) :
    List (Except ValidationError NormalizedDoc) :=
  parseRowsFrom dt 0 rows

/-- 1 for an accepted (inserted or updated) write, 0 for a skip. -/
def acceptCount : UpsertResult → Nat
  | .inserted => 1
  | .updated => 1
  | .skippedStale => 0
  | .skippedNoop => 0

/-- Modelled from the spec: processing of one domain type inside a batch:
parse every row, upsert the successful ones, count inserted+updated records
and collect the per-row validation errors instead of aborting. -/
def processType (dt : DomainType) (rows : List (List (String × String)))
    (b ot : String) (t : Nat) (rs : RecordStore) :
    RecordStore × Nat × List (DomainType × ValidationError) :=
  (parseRows dt rows).foldl
    (fun acc res =>
      match res with
      | .ok doc =>
        let out := upsertRecord acc.1 doc.key doc.fields ⟨b, some ot, t⟩
        (out.1, acc.2.1 + acceptCount out.2, acc.2.2)
      | .error e => (acc.1, acc.2.1, acc.2.2 ++ [(dt, e)]))
    (rs, 0, [])

/-- Modelled from the spec: the Batch Coordinator (backend `/upload/batch`
and `/upload/selective`, not in the sources).  Processes each selected
domain type in turn, accumulating a per-type breakdown of accepted record
counts and a list of per-type row errors; a failure inside one type never
prevents processing of the others. -/
def processBatch (types : List DomainType)
    (src : DomainType → List (List (String × String)))
    (b ot : String) (t : Nat) (st : Store) :
    Store × List (DomainType × Nat) × List (DomainType × ValidationError) :=
  match types with
  | [] => (st, [], [])
  | dt :: rest =>
    let out := processType dt (src dt) b ot t (st.get dt)
    let next := processBatch rest src b ot t (st.set dt out.1)
    (next.1, (dt, out.2.1) :: next.2.1, out.2.2 ++ next.2.2)

/-! ### Baseline and reset -/

/-- The reserved baseline batch marker. -/
def baselineMarker : String := "morning_baseline"

/-- The baseline business time (morning operations, 9:00 AM). -/
def baselineTime : String := "09:00"

/-- Modelled from the spec: the fixed canonical baseline dataset seeded by
the missing backend `seed_baseline_data` (all trucks on time, full
inventory, minimal support tickets). -/
def baselineRows : DomainType → List (String × List (String × String))
  | .fleet =>
    [("GI-58A", [("driver", "John Kamau"), ("status", "on_time"), ("route", "Kisumu-Mombasa")]),
     ("MO-84A", [("driver", "Mary Wanjiku"), ("status", "on_time"), ("route", "Kisumu-Mombasa")]),
     ("CE-57A", [("driver", "Peter Ochieng"), ("status", "on_time"), ("route", "Kisumu-Mombasa")])]
  | .orders =>
    [("ORD-001", [("customer", "Safaricom Ltd"), ("status", "pending"), ("value", "250000")])]
  | .inventory =>
    [("INV-001", [("name", "Diesel Fuel Premium Grade"), ("quantity", "15000"), ("status", "in_stock")])]
  | .support =>
    [("TKT-001", [("customer", "Safaricom Ltd"), ("issue", "Routine inquiry"), ("status", "open")])]

/-- Modelled from the spec: the Baseline/Reset Manager (backend
`cleanup_data.py` / `/demo/reset`, not in the sources): discard the whole
store and reseed the fixed baseline through the upsert pipeline with
`data_version = 1` and the reserved baseline marker, at ingestion time `t`. -/
def resetStore (t : Nat) (_st : Store) : Store :=
  { fleet := applyRows [] (baselineRows .fleet) baselineMarker baselineTime t,
    orders := applyRows [] (baselineRows .orders) baselineMarker baselineTime t,
    inventory := applyRows [] (baselineRows .inventory) baselineMarker baselineTime t,
    support := applyRows [] (baselineRows .support) baselineMarker baselineTime t }

/-- Erase the wall-clock ingestion timestamp of an envelope (for "equal
modulo `ingestion_timestamp`" comparisons). -/
def stripEnvelope (e : Envelope) : Envelope :=
  ⟨e.batch_id, e.operational_time, 0⟩

def stripRecords (s : RecordStore) : RecordStore :=
  s.map (fun kr => (kr.1, ⟨kr.2.fields, stripEnvelope kr.2.envelope, kr.2.data_version⟩))

def stripIngestion (st : Store) : Store :=
  ⟨stripRecords st.fleet, stripRecords st.orders,
   stripRecords st.inventory, stripRecords st.support⟩

/-! ### The demo state machine -/

/-- A demo state: the period label last successfully applied together with
its operational clock value in minutes. -/
abbrev DemoState := String × Nat

/-- The recognized demo period labels and their operational times, exactly
the `batch_id`/`operational_time` pairs of `handleDemoUpload` in
`DataUpload.tsx`. -/
def recognizedPeriods : List (String × String) :=
  [("afternoon_ops", "14:00"), ("evening_ops", "17:00"), ("night_shift", "23:00")]

/-- The baseline demo state: morning operations at 9:00. -/
def initialDemoState : DemoState := ("morning_baseline", 540)

/-- Modelled from the spec: the demo state is "driven entirely by which
`batch_id`/`operational_time` was last successfully applied"; an upload with
an unrecognized period label is rejected with a `ValidationError`; an upload
that is not strictly newer is discarded and leaves the state unchanged. -/
def demoStep (st : DemoState) (b ot : String) : Except ValidationError DemoState :=
  match lookupKey recognizedPeriods b with
  | none => .error (.unknownPeriod b)
  | some _ =>
    match parseClock ot with
    | none => .error (.malformedField "operational_time" ot)
    | some c => .ok (if st.2 < c then (b, c) else st)

/-- Reset transitions unconditionally back to the morning baseline. -/
def demoReset (_st : DemoState) : DemoState := initialDemoState

/-- The transition relation claimed by the spec's state-machine sentence:
the chain `morning_baseline → afternoon → evening → night` (reset edges back
to `morning_baseline` are treated separately). -/
def claimedChainEdges : List (String × String) :=
  [("morning_baseline", "afternoon_ops"),
   ("afternoon_ops", "evening_ops"),
   ("evening_ops", "night_shift")]

/-! ### Frontend: sign-in handler and the ApiService request wrapper -/

/-- Effects of a successful sign-in: the `localStorage` writes and the
navigation target. -/
structure SignInOutcome where
  storageWrites : List (String × String)
  navigateTo : Option String
deriving DecidableEq, Repr

/-- The `handleSignIn` handler of `src/runsheet/src/app/signin/page.tsx`:
on the exact demo credential pair it stores the auth state and navigates to
the dashboard, otherwise it throws `Error("Invalid credentials")` before any
write happens. -/
def handleSignIn (email password : String) : Except String SignInOutcome :=
  if email = "admin@runsheet.com" ∧ password = "demo123" then
    .ok ⟨[("isAuthenticated", "true"), ("userEmail", email)], some "/"⟩
  else
    .error "Invalid credentials"

/-- An HTTP response as seen by `ApiService.request`: the numeric status and
the (already serialized) body. -/
structure HttpResponse where
  status : Nat
  body : String
deriving DecidableEq, Repr

/-- `response.ok` of the Fetch API: status in the 2xx range. -/
def responseOk (r : HttpResponse) : Bool :=
  decide (200 ≤ r.status ∧ r.status < 300)

/-- `ApiService.request` of `src/runsheet/src/services/api.ts`: throw
`Error("HTTP error! status: <status>")` when `response.ok` is false,
otherwise return the parsed body. -/
def request (resp : HttpResponse) : Except String String :=
  if responseOk resp then .ok resp.body
  else .error ("HTTP error! status: " ++ toString resp.status)

/-- A transport: endpoint and serialized request payload to HTTP response. -/
abbrev Transport := String → String → HttpResponse

/-- `ApiService.uploadTemporalCSV`: delegates to `request` on `/upload/csv`. -/
def uploadTemporalCSV (tr : Transport) (file dataType batchId operationalTime : String) :
    Except String String :=
  request (tr "/upload/csv" (file ++ "|" ++ dataType ++ "|" ++ batchId ++ "|" ++ operationalTime))

/-- `ApiService.uploadBatchTemporal`: delegates to `request` on `/upload/batch`. -/
def uploadBatchTemporal (tr : Transport) (batchId operationalTime : String) :
    Except String String :=
  request (tr "/upload/batch" (batchId ++ "|" ++ operationalTime))

/-- `ApiService.uploadSelectiveTemporal`: delegates to `request` on
`/upload/selective`. -/
def uploadSelectiveTemporal (tr : Transport) (dataTypes : List String)
    (batchId operationalTime : String) : Except String String :=
  request (tr "/upload/selective" (String.intercalate "," dataTypes ++ "|" ++ batchId ++ "|" ++ operationalTime))

/-- `ApiService.resetDemo`: delegates to `request` on `/demo/reset`. -/
def resetDemo (tr : Transport) : Except String String :=
  request (tr "/demo/reset" "")

/-- Demo-data source used to exercise the Batch Coordinator: one good fleet
row, one orders row with a malformed numeric `value`, one good inventory
row. -/
def demoSrc : DomainType → List (List (String × String))
  | .fleet =>
    [[("truck_id", "GI-58A"), ("driver", "John Kamau"), ("status", "delayed"),
      ("route", "Kisumu-Mombasa"), ("location", "Highway A104")]]
  | .orders =>
    [[("order_id", "ORD-001"), ("customer", "Safaricom Ltd"), ("region", "Nairobi"),
      ("status", "pending"), ("value", "abc"), ("items", "Network equipment")]]
  | .inventory =>
    [[("item_id", "INV-002"), ("name", "Heavy Duty Truck Tires"), ("category", "Parts"),
      ("quantity", "25"), ("unit", "pieces"), ("location", "Mombasa Warehouse"),
      ("status", "low_stock")]]
  | .support => []

/-- A batch row is settled in a store when the key's current Record either
carries exactly the row's field values (so a re-upload is a content-equality
no-op) or strictly beats the batch's operational clock (so a re-upload is
skipped stale).  Either way, re-upserting the row at any ingestion time
leaves the store unchanged. -/
def rowSettled (ot : String) (s : RecordStore)
    (row : String × List (String × String)) : Prop :=
  ∃ r : Record, findRec s row.1 = some r ∧
    (r.fields = row.2 ∨
      ∃ a c : Nat, parseClock ot = some a ∧ clockOf r.envelope = some c ∧ a < c)

/-! ### Basic lemmas about the store -/

theorem lookupKey_set (s : RecordStore) (key : String) (r : Record) (k : String) :
    findRec (setRec s key r) k = if k = key then some r else findRec s k := by
  induction s with
  | nil =>
    rcases eq_or_ne k key with h | h
    · subst h; simp [findRec, setRec, lookupKey]
    · simp [findRec, setRec, lookupKey, h, Ne.symm h]
  | cons hd tl ih =>
    obtain ⟨k0, r0⟩ := hd
    rcases eq_or_ne k0 key with h0 | h0
    · subst h0
      rcases eq_or_ne k k0 with hk | hk
      · subst hk; simp [findRec, setRec, lookupKey]
      · simp [findRec, setRec, lookupKey, hk, Ne.symm hk]
    · rcases eq_or_ne k0 k with hk | hk
      · subst hk
        simp [findRec, setRec, lookupKey, h0, Ne.symm h0]
      · simp only [findRec, setRec, lookupKey, if_neg h0, if_neg hk]
        simpa [findRec] using ih

theorem findRec_mem {s : RecordStore} {k : String} {r : Record}
    (h : findRec s k = some r) : (k, r) ∈ s := by
  induction s with
  | nil => simp [findRec, lookupKey] at h
  | cons hd tl ih =>
    obtain ⟨k0, r0⟩ := hd
    by_cases hk : k0 = k
    · subst hk
      simp [findRec, lookupKey] at h
      simp [h]
    · simp [findRec, lookupKey, hk] at h
      exact List.mem_cons_of_mem _ (ih h)

theorem upsert_frame (s : RecordStore) (key : String) (f : List (String × String))
    (e : Envelope) (k : String) (hk : k ≠ key) :
    findRec (upsertRecord s key f e).1 k = findRec s k := by
  unfold upsertRecord
  cases hfind : findRec s key with
  | none => simp [lookupKey_set, hk]
  | some r =>
    by_cases hnew : newerThan e r.envelope
    · by_cases hf : r.fields = f
      · simp [hnew, hf]
      · simp [hnew, hf, lookupKey_set, hk]
    · simp [hnew]

theorem skip_of_settled (b ot : String) (s : RecordStore)
    (row : String × List (String × String)) (h : rowSettled ot s row) (t : Nat) :
    (upsertRecord s row.1 row.2 ⟨b, some ot, t⟩).1 = s := by
  obtain ⟨r, hfind, hcase⟩ := h
  unfold upsertRecord
  rw [hfind]
  rcases hcase with hf | ⟨a, c, hpa, hpc, hac⟩
  · by_cases hnew : newerThan ⟨b, some ot, t⟩ r.envelope
    · simp [hnew, hf]
    · simp [hnew]
  · have hnew : newerThan ⟨b, some ot, t⟩ r.envelope = false := by
      have hred : newerThan ⟨b, some ot, t⟩ r.envelope =
          match parseClock ot, clockOf r.envelope with
          | some a2, some c2 =>
            if a2 = c2 then
              decide (r.envelope.ingestion_timestamp < t)
            else decide (c2 < a2)
          | _, _ => decide (r.envelope.ingestion_timestamp < t) := rfl
      rw [hred, hpa, hpc]
      have hgoal : (if a = c then decide (r.envelope.ingestion_timestamp < t)
          else decide (c < a)) = false := by
        rw [if_neg (Nat.ne_of_lt hac)]
        exact decide_eq_false (Nat.lt_asymm hac)
      exact hgoal
    simp [hnew]

theorem applyRows_settled_fix (b ot : String) (t : Nat) :
    ∀ (rows : List (String × List (String × String))) (s : RecordStore),
      (∀ row ∈ rows, rowSettled ot s row) →
      applyRows s rows b ot t = s := by
  intro rows
  induction rows with
  | nil => intro s _; rfl
  | cons row rest ih =>
    intro s h
    have h0 : (upsertRecord s row.1 row.2 ⟨b, some ot, t⟩).1 = s :=
      skip_of_settled b ot s row (h row (by simp)) t
    show applyRows (upsertRecord s row.1 row.2 ⟨b, some ot, t⟩).1 rest b ot t = s
    rw [h0]
    exact ih s (fun row2 hm => h row2 (List.mem_cons_of_mem _ hm))

theorem applyRows_frame (b ot : String) (t : Nat) :
    ∀ (rows : List (String × List (String × String))) (s : RecordStore) (k : String),
      (∀ row ∈ rows, row.1 ≠ k) →
      findRec (applyRows s rows b ot t) k = findRec s k := by
  intro rows
  induction rows with
  | nil => intro s k _; rfl
  | cons row rest ih =>
    intro s k h
    show findRec (applyRows (upsertRecord s row.1 row.2 ⟨b, some ot, t⟩).1 rest b ot t) k
      = findRec s k
    rw [ih _ k (fun r2 hm => h r2 (List.mem_cons_of_mem _ hm))]
    exact upsert_frame s row.1 row.2 _ k (fun he => (h row (by simp)) he.symm)

theorem rowSettled_congr (ot : String) (s1 s2 : RecordStore)
    (row : String × List (String × String))
    (hf : findRec s2 row.1 = findRec s1 row.1)
    (h : rowSettled ot s1 row) : rowSettled ot s2 row := by
  obtain ⟨r, hr, hc⟩ := h
  exact ⟨r, by rw [hf]; exact hr, hc⟩

theorem settled_after (b ot : String) (t1 : Nat) :
    ∀ (rows : List (String × List (String × String))) (s : RecordStore),
      (rows.map Prod.fst).Nodup →
      (∀ row ∈ rows, ∀ r : Record, findRec s row.1 = some r →
        r.envelope.ingestion_timestamp < t1) →
      ∀ row ∈ rows, rowSettled ot (applyRows s rows b ot t1) row := by
  intro rows
  induction rows with
  | nil =>
    intro s _ _ row hm
    cases hm
  | cons row0 rest ih =>
    intro s hnd hwf row hm
    rw [List.map_cons, List.nodup_cons] at hnd
    have hnot : row0.1 ∉ rest.map Prod.fst := hnd.1
    have hndrest : (rest.map Prod.fst).Nodup := hnd.2
    have happ : applyRows s (row0 :: rest) b ot t1
        = applyRows (upsertRecord s row0.1 row0.2 ⟨b, some ot, t1⟩).1 rest b ot t1 := rfl
    rcases List.mem_cons.mp hm with heq | hmem
    · subst heq
      rw [happ]
      have hset1 : rowSettled ot (upsertRecord s row.1 row.2 ⟨b, some ot, t1⟩).1 row := by
        cases hfind : findRec s row.1 with
        | none =>
          refine ⟨⟨row.2, ⟨b, some ot, t1⟩, 1⟩, ?_, Or.inl rfl⟩
          have hs1 : (upsertRecord s row.1 row.2 ⟨b, some ot, t1⟩).1
              = setRec s row.1 ⟨row.2, ⟨b, some ot, t1⟩, 1⟩ := by
            unfold upsertRecord
            rw [hfind]
          rw [hs1, lookupKey_set, if_pos rfl]
        | some r =>
          cases hnew : newerThan ⟨b, some ot, t1⟩ r.envelope with
          | true =>
            by_cases hfld : r.fields = row.2
            · have hs1 : (upsertRecord s row.1 row.2 ⟨b, some ot, t1⟩).1 = s := by
                unfold upsertRecord
                rw [hfind]
                simp [hnew, hfld]
              rw [hs1]
              exact ⟨r, hfind, Or.inl hfld⟩
            · refine ⟨⟨row.2, ⟨b, some ot, t1⟩, r.data_version + 1⟩, ?_, Or.inl rfl⟩
              have hs1 : (upsertRecord s row.1 row.2 ⟨b, some ot, t1⟩).1
                  = setRec s row.1 ⟨row.2, ⟨b, some ot, t1⟩, r.data_version + 1⟩ := by
                unfold upsertRecord
                rw [hfind]
                simp [hnew, hfld]
              rw [hs1, lookupKey_set, if_pos rfl]
          | false =>
            have hing : r.envelope.ingestion_timestamp < t1 := hwf row (by simp) r hfind
            have hs1 : (upsertRecord s row.1 row.2 ⟨b, some ot, t1⟩).1 = s := by
              unfold upsertRecord
              rw [hfind]
              simp [hnew]
            have hnew2 : (match parseClock ot, clockOf r.envelope with
                | some a2, some c2 =>
                  if a2 = c2 then
                    decide (r.envelope.ingestion_timestamp < t1)
                  else decide (c2 < a2)
                | _, _ => decide (r.envelope.ingestion_timestamp < t1)) = false := hnew
            have hclocks : ∃ a c : Nat,
                parseClock ot = some a ∧ clockOf r.envelope = some c ∧ a < c := by
              cases hpa : parseClock ot with
              | none =>
                rw [hpa] at hnew2
                cases hpc : clockOf r.envelope <;> rw [hpc] at hnew2 <;>
                  simp [hing] at hnew2
              | some a =>
                cases hpc : clockOf r.envelope with
                | none =>
                  rw [hpa, hpc] at hnew2
                  simp [hing] at hnew2
                | some c =>
                  rw [hpa, hpc] at hnew2
                  have hnew3 : (if a = c then
                      decide (r.envelope.ingestion_timestamp < t1)
                    else decide (c < a)) = false := hnew2
                  by_cases hac : a = c
                  · rw [if_pos hac] at hnew3
                    simp [hing] at hnew3
                  · rw [if_neg hac] at hnew3
                    have hle : a ≤ c := Nat.not_lt.mp (of_decide_eq_false hnew3)
                    exact ⟨a, c, rfl, rfl, Nat.lt_of_le_of_ne hle hac⟩
            rw [hs1]
            obtain ⟨a, c, h1, h2, h3⟩ := hclocks
            exact ⟨r, hfind, Or.inr ⟨a, c, h1, h2, h3⟩⟩
      refine rowSettled_congr ot _ _ row ?_ hset1
      refine applyRows_frame b ot t1 rest _ row.1 ?_
      intro r2 hr2 he
      exact hnot (he ▸ List.mem_map_of_mem Prod.fst hr2)
    · rw [happ]
      refine ih _ hndrest ?_ row hmem
      intro row2 hm2 r hr
      have hne : row2.1 ≠ row0.1 := by
        intro he
        exact hnot (he ▸ List.mem_map_of_mem Prod.fst hm2)
      rw [upsert_frame s row0.1 row0.2 _ row2.1 hne] at hr
      exact hwf row2 (List.mem_cons_of_mem _ hm2) r hr

/-- C1: whenever a natural key already has a current stored Record and the
incoming envelope is not strictly newer under the ordering rule, the upsert
returns "skipped (stale)" and leaves the whole store unchanged; moreover an
incoming `operational_time` of 14:00 is never strictly newer than a stored
17:00, whatever the ingestion timestamps and batch ids. -/
theorem upsert_stale_skip :
    (∀ (s : RecordStore) (k : String) (f : List (String × String)) (e : Envelope) (r : Record),
      findRec s k = some r → newerThan e r.envelope = false →
      upsertRecord s k f e = (s, UpsertResult.skippedStale))
    ∧ ∀ (b1 b2 : String) (t1 t2 : Nat),
        newerThan ⟨b1, some "14:00", t1⟩ ⟨b2, some "17:00", t2⟩ = false := by
  constructor
  · intro s k f e r hfind hnew
    unfold upsertRecord
    rw [hfind]
    simp [hnew]
  · intro b1 b2 t1 t2
    rfl

/-- Witness for C1: a stored `GI-58A` Record with `operational_time = 17:00`
survives an upload with `operational_time = 14:00` unchanged, with result
"skipped (stale)". -/
theorem upsert_stale_skip_witness :
    upsertRecord [("GI-58A", ⟨[("status", "delivered")], ⟨"evening_ops", some "17:00", 50⟩, 2⟩)]
        "GI-58A" [("status", "delayed")] ⟨"afternoon_ops", some "14:00", 99⟩
      = ([("GI-58A", ⟨[("status", "delivered")], ⟨"evening_ops", some "17:00", 50⟩, 2⟩)],
         UpsertResult.skippedStale) :=
  upsert_stale_skip.1 _ "GI-58A" _ _
    ⟨[("status", "delivered")], ⟨"evening_ops", some "17:00", 50⟩, 2⟩ (by decide)
    (upsert_stale_skip.2 "afternoon_ops" "evening_ops" 99 50)

/-- C2: `data_version` is assigned 1 on first insert, `stored + 1` on every
accepted (non-stale) write, skips never touch the store, and every Record in
a store reachable from empty by upserts has a positive `data_version` — so
the versions ever written for one natural key go 1, 2, 3, … strictly
increasing by exactly 1 per accepted write. -/
theorem data_version_monotonic :
    ∀ (s : RecordStore) (k : String) (f : List (String × String)) (e : Envelope),
      (findRec s k = none →
        upsertRecord s k f e = (setRec s k ⟨f, e, 1⟩, UpsertResult.inserted) ∧
        findRec (upsertRecord s k f e).1 k = some ⟨f, e, 1⟩) ∧
      (∀ r : Record, findRec s k = some r →
        ((upsertRecord s k f e).2 = UpsertResult.updated →
          findRec (upsertRecord s k f e).1 k = some ⟨f, e, r.data_version + 1⟩) ∧
        ((upsertRecord s k f e).2 ≠ UpsertResult.updated → (upsertRecord s k f e).1 = s)) ∧
      (ReachableR s → ∀ (k2 : String) (r : Record), findRec s k2 = some r → 1 ≤ r.data_version) := by
  intro s k f e
  refine ⟨?_, ?_, ?_⟩
  · intro hnone
    unfold upsertRecord
    rw [hnone]
    exact ⟨rfl, by simp [lookupKey_set]⟩
  · intro r hr
    unfold upsertRecord
    rw [hr]
    by_cases hnew : newerThan e r.envelope
    · by_cases hf : r.fields = f
      · simp [hnew, hf]
      · constructor
        · intro _
          simp [hnew, hf, lookupKey_set]
        · intro hne
          simp [hnew, hf] at hne
    · simp [hnew]
  · intro hreach
    induction hreach with
    | empty =>
      intro k2 r h
      simp [findRec, lookupKey] at h
    | step s0 k0 f0 e0 _ ih =>
      intro k2 r h
      unfold upsertRecord at h
      cases hfind : findRec s0 k0 with
      | none =>
        rw [hfind] at h
        rw [lookupKey_set] at h
        by_cases hk : k2 = k0
        · rw [if_pos hk] at h
          injection h with h2
          subst h2
          exact Nat.le_refl 1
        · rw [if_neg hk] at h
          exact ih k2 r h
      | some r0 =>
        rw [hfind] at h
        by_cases hnew : newerThan e0 r0.envelope
        · by_cases hf : r0.fields = f0
          · simp only [hnew, if_true, hf, if_pos] at h
            exact ih k2 r h
          · simp only [hnew, if_true, hf, if_neg, ite_false] at h
            rw [lookupKey_set] at h
            by_cases hk : k2 = k0
            · rw [if_pos hk] at h
              injection h with h2
              subst h2
              exact Nat.succ_le_succ (Nat.zero_le _)
            · rw [if_neg hk] at h
              exact ih k2 r h
        · simp only [hnew] at h
          simp at h
          exact ih k2 r h

/-- Witness for C2: inserting a fresh key into the empty store yields
`data_version = 1`. -/
theorem data_version_monotonic_witness :
    upsertRecord [] "GI-58A" [("status", "on_time")] ⟨"morning_baseline", some "09:00", 1⟩
      = (setRec [] "GI-58A"
          ⟨[("status", "on_time")], ⟨"morning_baseline", some "09:00", 1⟩, 1⟩,
         UpsertResult.inserted)
    ∧ findRec (upsertRecord [] "GI-58A" [("status", "on_time")]
          ⟨"morning_baseline", some "09:00", 1⟩).1 "GI-58A"
      = some ⟨[("status", "on_time")], ⟨"morning_baseline", some "09:00", 1⟩, 1⟩ :=
  (data_version_monotonic [] "GI-58A" [("status", "on_time")]
    ⟨"morning_baseline", some "09:00", 1⟩).1 (by decide)

/-- C3 counterexample: the upsert is NOT idempotent for every batch and
every store state.  A batch containing two rows with the same natural key
and conflicting field values, applied twice to the empty store (the second
application at a later ingestion time, as re-uploads are), changes the
store on the second application: the duplicate row that was skipped stale
on the first pass wins the ingestion tie-break on the second and bumps
`data_version` to 2. -/
theorem batch_idempotent_counterexample :
    applyRows
        (applyRows [] [("GI-58A", [("status", "on_time")]), ("GI-58A", [("status", "delayed")])]
          "afternoon_ops" "14:00" 100)
        [("GI-58A", [("status", "on_time")]), ("GI-58A", [("status", "delayed")])]
        "afternoon_ops" "14:00" 200
      ≠ applyRows [] [("GI-58A", [("status", "on_time")]), ("GI-58A", [("status", "delayed")])]
          "afternoon_ops" "14:00" 100 := by
  decide

/-- C3 amended: for every batch whose rows carry pairwise-distinct natural
keys and every store whose records at those keys were ingested strictly
before the first application, applying the batch twice (the re-upload at
any ingestion time, under any batch id) yields the same store as applying
it once — so `data_version` is unchanged by the second application.
Moreover the content-equality short-circuit holds unconditionally for a
single record: when the incoming field values equal the stored ones, the
upsert performs no write and no version bump even if the envelope's
batch id or timestamps differ. -/
theorem batch_idempotent_amended :
    (∀ (s : RecordStore) (rows : List (String × List (String × String)))
        (b b2 ot : String) (t1 t2 : Nat),
      (rows.map Prod.fst).Nodup →
      (∀ row ∈ rows, ∀ r : Record, findRec s row.1 = some r →
        r.envelope.ingestion_timestamp < t1) →
      applyRows (applyRows s rows b ot t1) rows b2 ot t2
        = applyRows s rows b ot t1)
    ∧ (∀ (s : RecordStore) (k : String) (f : List (String × String)) (e : Envelope)
        (r : Record), findRec s k = some r → r.fields = f →
        (upsertRecord s k f e).1 = s) := by
  constructor
  · intro s rows b b2 ot t1 t2 hnd hwf
    exact applyRows_settled_fix b2 ot t2 rows _ (settled_after b ot t1 rows s hnd hwf)
  · intro s k f e r hfind hf
    unfold upsertRecord
    rw [hfind]
    by_cases hnew : newerThan e r.envelope <;> simp [hnew, hf]

/-- Witness for C3 (amended): the GI-58A scenario of the spec — a current
Record at `data_version = 2` re-uploaded with identical content under
`batch_id = afternoon_ops_retry` and a later ingestion time is left
untouched, both as a one-row batch and as a single upsert. -/
theorem batch_idempotent_amended_witness :
    (([("GI-58A", [("status", "delayed")])].map
        (Prod.fst (α := String) (β := List (String × String)))).Nodup
      ∧ applyRows
          (applyRows
            [("GI-58A", ⟨[("status", "delayed")], ⟨"afternoon_ops", some "14:00", 10⟩, 2⟩)]
            [("GI-58A", [("status", "delayed")])] "afternoon_ops" "14:00" 20)
          [("GI-58A", [("status", "delayed")])] "afternoon_ops_retry" "14:00" 30
        = applyRows
            [("GI-58A", ⟨[("status", "delayed")], ⟨"afternoon_ops", some "14:00", 10⟩, 2⟩)]
            [("GI-58A", [("status", "delayed")])] "afternoon_ops" "14:00" 20)
    ∧ (upsertRecord
        [("GI-58A", ⟨[("status", "delayed")], ⟨"afternoon_ops", some "14:00", 10⟩, 2⟩)]
        "GI-58A" [("status", "delayed")] ⟨"afternoon_ops_retry", some "14:00", 30⟩).1
      = [("GI-58A", ⟨[("status", "delayed")], ⟨"afternoon_ops", some "14:00", 10⟩, 2⟩)] := by
  refine ⟨⟨by decide, ?_⟩, ?_⟩
  · refine batch_idempotent_amended.1 _ _ "afternoon_ops" "afternoon_ops_retry" "14:00" 20 30
      (by decide) ?_
    intro row hm r hr
    have hrow : row = ("GI-58A", [("status", "delayed")]) := by simpa using hm
    subst hrow
    rw [show findRec
        [("GI-58A", ⟨[("status", "delayed")], ⟨"afternoon_ops", some "14:00", 10⟩, 2⟩)]
        ("GI-58A", [("status", "delayed")]).1
      = some ⟨[("status", "delayed")], ⟨"afternoon_ops", some "14:00", 10⟩, 2⟩ from rfl] at hr
    injection hr with h2
    subst h2
    decide
  · exact batch_idempotent_amended.2 _ "GI-58A" _ ⟨"afternoon_ops_retry", some "14:00", 30⟩
      ⟨[("status", "delayed")], ⟨"afternoon_ops", some "14:00", 10⟩, 2⟩ (by decide) (by decide)

theorem newerThan_self (e : Envelope) : newerThan e e = false := by
  have hred : newerThan e e =
      match clockOf e, clockOf e with
      | some a, some c =>
        if a = c then decide (e.ingestion_timestamp < e.ingestion_timestamp)
        else decide (c < a)
      | _, _ => decide (e.ingestion_timestamp < e.ingestion_timestamp) := rfl
  rw [hred]
  cases hpc : clockOf e <;> simp

theorem mem_setRec : ∀ (s : RecordStore) (key : String) (r : Record)
    (kr : String × Record), kr ∈ setRec s key r → kr = (key, r) ∨ kr ∈ s := by
  intro s key r
  induction s with
  | nil =>
    intro kr h
    simp only [setRec, List.mem_singleton] at h
    exact Or.inl h
  | cons hd tl ih =>
    intro kr h
    obtain ⟨k0, r0⟩ := hd
    by_cases h0 : k0 = key
    · subst h0
      rw [show setRec ((k0, r0) :: tl) k0 r = (k0, r) :: tl from by
        simp [setRec]] at h
      rcases List.mem_cons.mp h with h2 | h2
      · exact Or.inl h2
      · exact Or.inr (List.mem_cons_of_mem _ h2)
    · rw [show setRec ((k0, r0) :: tl) key r = (k0, r0) :: setRec tl key r from by
        simp [setRec, h0]] at h
      rcases List.mem_cons.mp h with h2 | h2
      · exact Or.inr (by simp [h2])
      · rcases ih kr h2 with h3 | h3
        · exact Or.inl h3
        · exact Or.inr (List.mem_cons_of_mem _ h3)

theorem applyRows_uniform (b ot : String) (t : Nat) :
    ∀ (rows : List (String × List (String × String))) (s : RecordStore),
      (∀ kr ∈ s, kr.2.data_version = 1 ∧ kr.2.envelope = ⟨b, some ot, t⟩) →
      ∀ kr ∈ applyRows s rows b ot t,
        kr.2.data_version = 1 ∧ kr.2.envelope = ⟨b, some ot, t⟩ := by
  intro rows
  induction rows with
  | nil => intro s hs kr hm; exact hs kr hm
  | cons row rest ih =>
    intro s hs kr hm
    have hstep : ∀ kr2 ∈ (upsertRecord s row.1 row.2 ⟨b, some ot, t⟩).1,
        kr2.2.data_version = 1 ∧ kr2.2.envelope = ⟨b, some ot, t⟩ := by
      intro kr2 hm2
      cases hfind : findRec s row.1 with
      | none =>
        have hs1 : (upsertRecord s row.1 row.2 ⟨b, some ot, t⟩).1
            = setRec s row.1 ⟨row.2, ⟨b, some ot, t⟩, 1⟩ := by
          unfold upsertRecord
          rw [hfind]
        rw [hs1] at hm2
        rcases mem_setRec s row.1 _ kr2 hm2 with h2 | h2
        · subst h2
          exact ⟨rfl, rfl⟩
        · exact hs kr2 h2
      | some r =>
        have hrenv : r.envelope = ⟨b, some ot, t⟩ := (hs (row.1, r) (findRec_mem hfind)).2
        have hnew : newerThan ⟨b, some ot, t⟩ r.envelope = false := by
          rw [hrenv]
          exact newerThan_self _
        have hs1 : (upsertRecord s row.1 row.2 ⟨b, some ot, t⟩).1 = s := by
          unfold upsertRecord
          rw [hfind]
          simp [hnew]
        rw [hs1] at hm2
        exact hs kr2 hm2
    exact ih _ hstep kr hm

/-- C4: reset is a constant function on store states — its result does not
depend on the store it replaces, resetting twice equals resetting once, the
result is identical modulo `ingestion_timestamp` to a fresh reset from the
empty store, and every Record it seeds carries `data_version = 1` and the
reserved baseline marker as `batch_id`. -/
theorem reset_baseline_constant :
    (∀ (t : Nat) (s : Store), resetStore t s = resetStore t emptyStore)
    ∧ (∀ (t1 t2 : Nat) (s : Store), resetStore t2 (resetStore t1 s) = resetStore t2 s)
    ∧ (∀ (t1 t2 : Nat) (s1 s2 : Store),
        stripIngestion (resetStore t1 s1) = stripIngestion (resetStore t2 s2))
    ∧ (∀ (t : Nat) (s : Store) (dt : DomainType) (k : String) (r : Record),
        findRec ((resetStore t s).get dt) k = some r →
        r.data_version = 1 ∧ r.envelope.batch_id = baselineMarker) := by
  refine ⟨fun t s => rfl, fun t1 t2 s => rfl, fun t1 t2 s1 s2 => rfl, ?_⟩
  intro t s dt k r h
  have hget : (resetStore t s).get dt
      = applyRows [] (baselineRows dt) baselineMarker baselineTime t := by
    cases dt <;> rfl
  rw [hget] at h
  have hu := applyRows_uniform baselineMarker baselineTime t (baselineRows dt) []
    (by intro kr hkr; cases hkr) (k, r) (findRec_mem h)
  exact ⟨hu.1, by rw [hu.2]⟩

/-- Witness for C4: after reset at ingestion time 7 the `GI-58A` baseline
Record exists with `data_version = 1` and the baseline marker. -/
theorem reset_baseline_constant_witness :
    findRec ((resetStore 7 emptyStore).get DomainType.fleet) "GI-58A"
      = some ⟨[("driver", "John Kamau"), ("status", "on_time"), ("route", "Kisumu-Mombasa")],
              ⟨"morning_baseline", some "09:00", 7⟩, 1⟩
    ∧ ((⟨[("driver", "John Kamau"), ("status", "on_time"), ("route", "Kisumu-Mombasa")],
         ⟨"morning_baseline", some "09:00", 7⟩, 1⟩ : Record).data_version = 1
       ∧ (⟨[("driver", "John Kamau"), ("status", "on_time"), ("route", "Kisumu-Mombasa")],
           ⟨"morning_baseline", some "09:00", 7⟩, 1⟩ : Record).envelope.batch_id
         = baselineMarker) :=
  ⟨by decide,
   reset_baseline_constant.2.2.2 7 emptyStore DomainType.fleet "GI-58A"
     ⟨[("driver", "John Kamau"), ("status", "on_time"), ("route", "Kisumu-Mombasa")],
      ⟨"morning_baseline", some "09:00", 7⟩, 1⟩ (by decide)⟩

theorem get_set (st : Store) (dt dt2 : DomainType) (rs : RecordStore) :
    (st.set dt rs).get dt2 = if dt2 = dt then rs else st.get dt2 := by
  cases dt <;> cases dt2 <;> simp [Store.get, Store.set]

theorem mapCongrMem {α β : Type} (l : List α) (f g : α → β)
    (h : ∀ a ∈ l, f a = g a) : l.map f = l.map g := by
  induction l with
  | nil => rfl
  | cons a t ih =>
    rw [List.map_cons, List.map_cons, h a (by simp),
      ih (fun a2 hm => h a2 (List.mem_cons_of_mem _ hm))]

theorem processBatch_frame :
    ∀ (types : List DomainType) (src : DomainType → List (List (String × String)))
      (b ot : String) (t : Nat) (st : Store) (dt : DomainType),
      dt ∉ types → ((processBatch types src b ot t st).1).get dt = st.get dt := by
  intro types
  induction types with
  | nil => intro src b ot t st dt _; rfl
  | cons dt0 rest ih =>
    intro src b ot t st dt hnm
    have h1 : dt ≠ dt0 := fun he => hnm (he ▸ List.mem_cons_self dt0 rest)
    show ((processBatch rest src b ot t
        (st.set dt0 (processType dt0 (src dt0) b ot t (st.get dt0)).1)).1).get dt
      = st.get dt
    rw [ih src b ot t _ dt (fun hm => hnm (List.mem_cons_of_mem _ hm)), get_set,
      if_neg h1]

/-- C5: partial-failure isolation of the Batch Coordinator — with a set of
selected domain types (no duplicates), each selected type's breakdown count,
error list and final sub-store are computed solely from its own rows and its
own sub-store, so a parse failure in one domain type cannot prevent or alter
processing of the others; and the response always carries the full per-type
breakdown together with the collected (domain type, error) failures rather
than failing the whole request. -/
theorem batch_partial_isolation :
    ∀ (types : List DomainType) (src : DomainType → List (List (String × String)))
      (b ot : String) (t : Nat) (st : Store),
      types.Nodup →
      ((processBatch types src b ot t st).2.1
          = types.map (fun dt => (dt, (processType dt (src dt) b ot t (st.get dt)).2.1)))
      ∧ ((processBatch types src b ot t st).2.2
          = (types.map (fun dt => (processType dt (src dt) b ot t (st.get dt)).2.2)).flatten)
      ∧ ∀ dt ∈ types, ((processBatch types src b ot t st).1).get dt
          = (processType dt (src dt) b ot t (st.get dt)).1 := by
  intro types
  induction types with
  | nil =>
    intro src b ot t st _
    exact ⟨rfl, rfl, by intro dt hm; cases hm⟩
  | cons dt0 rest ih =>
    intro src b ot t st hnd
    rw [List.nodup_cons] at hnd
    obtain ⟨hnm, hndrest⟩ := hnd
    have ihh := ih src b ot t
      (st.set dt0 (processType dt0 (src dt0) b ot t (st.get dt0)).1) hndrest
    have hgets : ∀ dt ∈ rest,
        (st.set dt0 (processType dt0 (src dt0) b ot t (st.get dt0)).1).get dt
          = st.get dt := by
      intro dt hm
      rw [get_set, if_neg (show dt ≠ dt0 from fun he => hnm (he ▸ hm))]
    refine ⟨?_, ?_, ?_⟩
    · show ((dt0, (processType dt0 (src dt0) b ot t (st.get dt0)).2.1)
          :: (processBatch rest src b ot t
              (st.set dt0 (processType dt0 (src dt0) b ot t (st.get dt0)).1)).2.1)
        = _
      rw [List.map_cons, ihh.1]
      congr 1
      exact mapCongrMem rest _ _ (fun dt hm => by rw [hgets dt hm])
    · show ((processType dt0 (src dt0) b ot t (st.get dt0)).2.2
          ++ (processBatch rest src b ot t
              (st.set dt0 (processType dt0 (src dt0) b ot t (st.get dt0)).1)).2.2)
        = _
      rw [List.map_cons, List.flatten_cons, ihh.2.1]
      congr 1
      exact congrArg List.flatten (mapCongrMem rest _ _ (fun dt hm => by rw [hgets dt hm]))
    · intro dt hm
      rcases List.mem_cons.mp hm with heq | hmem
      · subst heq
        show ((processBatch rest src b ot t
            (st.set dt (processType dt (src dt) b ot t (st.get dt)).1)).1).get dt = _
        rw [processBatch_frame rest src b ot t _ dt hnm, get_set, if_pos rfl]
      · show ((processBatch rest src b ot t
            (st.set dt0 (processType dt0 (src dt0) b ot t (st.get dt0)).1)).1).get dt = _
        rw [ihh.2.2 dt hmem, hgets dt hmem]

/-- Witness for C5: three selected types where the orders CSV row has a
malformed numeric `value`: fleet and inventory still report non-zero
counts, and the response carries the breakdown plus the orders error. -/
theorem batch_partial_isolation_witness :
    ([DomainType.fleet, DomainType.orders, DomainType.inventory].Nodup
      ∧ (processBatch [DomainType.fleet, DomainType.orders, DomainType.inventory]
          demoSrc "afternoon_ops" "14:00" 5 emptyStore).2.1
        = [DomainType.fleet, DomainType.orders, DomainType.inventory].map
            (fun dt => (dt, (processType dt (demoSrc dt) "afternoon_ops" "14:00" 5
              (emptyStore.get dt)).2.1)))
    ∧ (processBatch [DomainType.fleet, DomainType.orders, DomainType.inventory]
        demoSrc "afternoon_ops" "14:00" 5 emptyStore).2.1
      = [(DomainType.fleet, 1), (DomainType.orders, 0), (DomainType.inventory, 1)]
    ∧ (processBatch [DomainType.fleet, DomainType.orders, DomainType.inventory]
        demoSrc "afternoon_ops" "14:00" 5 emptyStore).2.2
      = [(DomainType.orders, ValidationError.malformedField "value" "abc")] :=
  ⟨⟨by decide,
    (batch_partial_isolation [DomainType.fleet, DomainType.orders, DomainType.inventory]
      demoSrc "afternoon_ops" "14:00" 5 emptyStore (by decide)).1⟩,
   by decide, by decide⟩

/-- C6 counterexample: the demo state machine does not only take the chain
transitions `morning_baseline → afternoon → evening → night`: pressing the
evening demo upload straight from the baseline succeeds (17:00 is strictly
newer than 9:00) and moves the state directly from `morning_baseline` to
`evening_ops`, a transition outside the claimed chain. -/
theorem demo_transitions_counterexample :
    demoStep initialDemoState "evening_ops" "17:00" = .ok ("evening_ops", 1020)
    ∧ ("morning_baseline", "evening_ops") ∉ claimedChainEdges :=
  ⟨rfl, by decide⟩

/-- C6 amended: every successful upload step either leaves the demo state
unchanged (stale upload) or jumps to any recognized period whose
operational time is strictly later than the current one (the chain may be
skipped); an upload with an unrecognized period label is rejected with a
`ValidationError` and causes no state change; reset moves unconditionally
back to `morning_baseline`. -/
theorem demo_transitions_amended :
    (∀ (st : DemoState) (b ot : String) (st2 : DemoState),
      demoStep st b ot = .ok st2 →
      st2 = st ∨ ∃ (p : String) (c : Nat),
        lookupKey recognizedPeriods b = some p ∧ parseClock ot = some c ∧
        st.2 < c ∧ st2 = (b, c))
    ∧ (∀ (st : DemoState) (b ot : String),
        lookupKey recognizedPeriods b = none →
        demoStep st b ot = .error (.unknownPeriod b))
    ∧ (∀ st : DemoState, demoReset st = initialDemoState) := by
  refine ⟨?_, ?_, fun st => rfl⟩
  · intro st b ot st2 h
    unfold demoStep at h
    cases hp : lookupKey recognizedPeriods b with
    | none =>
      rw [hp] at h
      exact absurd h (by simp)
    | some p =>
      rw [hp] at h
      cases hc : parseClock ot with
      | none =>
        rw [hc] at h
        exact absurd h (by simp)
      | some c =>
        rw [hc] at h
        have h2 : (Except.ok (if st.2 < c then (b, c) else st) :
            Except ValidationError DemoState) = Except.ok st2 := h
        injection h2 with h3
        by_cases hlt : st.2 < c
        · exact Or.inr ⟨p, c, rfl, rfl, hlt, by rw [← h3, if_pos hlt]⟩
        · exact Or.inl (by rw [← h3, if_neg hlt])
  · intro st b ot h
    unfold demoStep
    rw [h]

/-- Witness for C6 (amended): the afternoon upload from the baseline is a
legitimate strictly-later jump, and a `weekend_ops` upload is rejected with
a `ValidationError`. -/
theorem demo_transitions_amended_witness :
    ((("afternoon_ops", 840) : DemoState) = initialDemoState
      ∨ ∃ (p : String) (c : Nat),
          lookupKey recognizedPeriods "afternoon_ops" = some p
          ∧ parseClock "14:00" = some c ∧ initialDemoState.2 < c
          ∧ (("afternoon_ops", 840) : DemoState) = ("afternoon_ops", c))
    ∧ demoStep initialDemoState "weekend_ops" "20:00"
      = .error (.unknownPeriod "weekend_ops") :=
  ⟨demo_transitions_amended.1 initialDemoState "afternoon_ops" "14:00"
      ("afternoon_ops", 840) rfl,
   demo_transitions_amended.2.1 initialDemoState "weekend_ops" "20:00" (by decide)⟩

theorem firstMissing_some (row : List (String × String)) (idx : Nat) :
    ∀ (l : List String) (e : ValidationError), firstMissing row idx l = some e →
      ∃ f, e = .missingField f idx ∧ f ∈ l ∧ lookupKey row f = none := by
  intro l
  induction l with
  | nil =>
    intro e h
    exact absurd h (by simp [firstMissing])
  | cons f rest ih =>
    intro e h
    unfold firstMissing at h
    cases hl : lookupKey row f with
    | none =>
      rw [hl] at h
      have h2 : some (ValidationError.missingField f idx) = some e := h
      injection h2 with h3
      exact ⟨f, h3.symm, by simp, hl⟩
    | some v =>
      rw [hl] at h
      have h2 : firstMissing row idx rest = some e := h
      obtain ⟨f2, he, hm, hn⟩ := ih e h2
      exact ⟨f2, he, List.mem_cons_of_mem _ hm, hn⟩

theorem firstMalformed_some (row : List (String × String)) :
    ∀ (l : List String) (e : ValidationError), firstMalformed row l = some e →
      ∃ f v, e = .malformedField f v ∧ f ∈ l ∧ lookupKey row f = some v
        ∧ parseNatStr v = none := by
  intro l
  induction l with
  | nil =>
    intro e h
    exact absurd h (by simp [firstMalformed])
  | cons f rest ih =>
    intro e h
    unfold firstMalformed at h
    cases hl : lookupKey row f with
    | none =>
      rw [hl] at h
      have h2 : firstMalformed row rest = some e := h
      obtain ⟨f2, v, he, hm, hfnd, hpn⟩ := ih e h2
      exact ⟨f2, v, he, List.mem_cons_of_mem _ hm, hfnd, hpn⟩
    | some v =>
      rw [hl] at h
      have h2 : (if parseNatStr v = none then some (ValidationError.malformedField f v)
          else firstMalformed row rest) = some e := h
      by_cases hpn : parseNatStr v = none
      · rw [if_pos hpn] at h2
        injection h2 with h3
        exact ⟨f, v, h3.symm, by simp, hl, hpn⟩
      · rw [if_neg hpn] at h2
        obtain ⟨f2, v2, he, hm, hfnd, hpn2⟩ := ih e h2
        exact ⟨f2, v2, he, List.mem_cons_of_mem _ hm, hfnd, hpn2⟩

theorem keyField_required (dt : DomainType) : keyField dt ∈ requiredFields dt := by
  cases dt <;> decide

theorem parseRowsFrom_length (dt : DomainType) :
    ∀ (rows : List (List (String × String))) (idx : Nat),
      (parseRowsFrom dt idx rows).length = rows.length := by
  intro rows
  induction rows with
  | nil => intro idx; rfl
  | cons row rest ih =>
    intro idx
    simp [parseRowsFrom, ih]

theorem parseRowsFrom_get (dt : DomainType) :
    ∀ (rows : List (List (String × String))) (idx i : Nat)
      (row : List (String × String)), rows.get? i = some row →
      (parseRowsFrom dt idx rows).get? i = some (parseRow dt (idx + i) row) := by
  intro rows
  induction rows with
  | nil =>
    intro idx i row h
    simp at h
  | cons r0 rest ih =>
    intro idx i row h
    cases i with
    | zero =>
      simp at h
      subst h
      simp [parseRowsFrom]
    | succ n =>
      simp only [parseRowsFrom, List.get?_cons_succ]
      rw [show idx + (n + 1) = idx + 1 + n from by omega]
      exact ih (idx + 1) n row (by simpa using h)

/-- C7: the Row Parser either succeeds with a normalized document (the row
itself under its natural key) or fails with a `ValidationError` that names a
missing required field together with the row index, or a malformed numeric
field together with its raw value; and parsing is per-row — the result list
of a batch has one entry per row, each computed independently by `parseRow`
at its own index, so one row's failure never aborts its siblings. -/
theorem rowParse_errors :
    (∀ (dt : DomainType) (idx : Nat) (row : List (String × String)) (e : ValidationError),
      parseRow dt idx row = .error e →
      (∃ f, e = .missingField f idx ∧ f ∈ requiredFields dt ∧ lookupKey row f = none)
      ∨ (∃ f v, e = .malformedField f v ∧ f ∈ numericFields dt
          ∧ lookupKey row f = some v ∧ parseNatStr v = none))
    ∧ (∀ (dt : DomainType) (idx : Nat) (row : List (String × String)) (d : NormalizedDoc),
        parseRow dt idx row = .ok d →
        d.fields = row ∧ lookupKey row (keyField dt) = some d.key)
    ∧ (∀ (dt : DomainType) (rows : List (List (String × String))),
        (parseRows dt rows).length = rows.length)
    ∧ (∀ (dt : DomainType) (rows : List (List (String × String))) (i : Nat)
        (row : List (String × String)), rows.get? i = some row →
        (parseRows dt rows).get? i = some (parseRow dt i row)) := by
  refine ⟨?_, ?_, ?_, ?_⟩
  · intro dt idx row e h
    unfold parseRow at h
    cases hm1 : firstMissing row idx (requiredFields dt) with
    | some e1 =>
      rw [hm1] at h
      have h2 : (Except.error e1 : Except ValidationError NormalizedDoc) = .error e := h
      injection h2 with h3
      exact Or.inl (h3 ▸ firstMissing_some row idx (requiredFields dt) e1 hm1)
    | none =>
      rw [hm1] at h
      cases hm2 : firstMalformed row (numericFields dt) with
      | some e2 =>
        rw [hm2] at h
        have h2 : (Except.error e2 : Except ValidationError NormalizedDoc) = .error e := h
        injection h2 with h3
        exact Or.inr (h3 ▸ firstMalformed_some row (numericFields dt) e2 hm2)
      | none =>
        rw [hm2] at h
        cases hk : lookupKey row (keyField dt) with
        | some k =>
          rw [hk] at h
          have h2 : (Except.ok (⟨k, row⟩ : NormalizedDoc) :
              Except ValidationError NormalizedDoc) = .error e := h
          exact absurd h2 (by simp)
        | none =>
          rw [hk] at h
          have h2 : (Except.error (ValidationError.missingField (keyField dt) idx) :
              Except ValidationError NormalizedDoc) = .error e := h
          injection h2 with h3
          exact Or.inl ⟨keyField dt, h3.symm, keyField_required dt, hk⟩
  · intro dt idx row d h
    unfold parseRow at h
    cases hm1 : firstMissing row idx (requiredFields dt) with
    | some e1 =>
      rw [hm1] at h
      exact absurd (show (Except.error e1 : Except ValidationError NormalizedDoc)
        = .ok d from h) (by simp)
    | none =>
      rw [hm1] at h
      cases hm2 : firstMalformed row (numericFields dt) with
      | some e2 =>
        rw [hm2] at h
        exact absurd (show (Except.error e2 : Except ValidationError NormalizedDoc)
          = .ok d from h) (by simp)
      | none =>
        rw [hm2] at h
        cases hk : lookupKey row (keyField dt) with
        | some k =>
          rw [hk] at h
          have h2 : (Except.ok (⟨k, row⟩ : NormalizedDoc) :
              Except ValidationError NormalizedDoc) = .ok d := h
          injection h2 with h3
          rw [← h3]
          exact ⟨rfl, rfl⟩
        | none =>
          rw [hk] at h
          exact absurd (show (Except.error (ValidationError.missingField (keyField dt) idx) :
            Except ValidationError NormalizedDoc) = .ok d from h) (by simp)
  · intro dt rows
    exact parseRowsFrom_length dt rows 0
  · intro dt rows i row h
    have := parseRowsFrom_get dt rows 0 i row h
    rwa [Nat.zero_add] at this

/-- Witness for C7: a fleet row lacking `driver` fails naming the missing
field and its row index 3; an orders row with `value = "abc"` fails naming
the field and raw value; a well-formed row normalizes; and results line up
one per row. -/
theorem rowParse_errors_witness :
    parseRow DomainType.fleet 3 [("truck_id", "GI-58A"), ("status", "delayed")]
      = .error (.missingField "driver" 3)
    ∧ ((∃ f, (ValidationError.missingField "driver" 3) = .missingField f 3
          ∧ f ∈ requiredFields DomainType.fleet
          ∧ lookupKey [("truck_id", "GI-58A"), ("status", "delayed")] f = none)
        ∨ (∃ f v, (ValidationError.missingField "driver" 3) = .malformedField f v
            ∧ f ∈ numericFields DomainType.fleet
            ∧ lookupKey [("truck_id", "GI-58A"), ("status", "delayed")] f = some v
            ∧ parseNatStr v = none))
    ∧ (parseRows DomainType.orders (demoSrc DomainType.orders)).get? 0
      = some (parseRow DomainType.orders 0 (demoSrc DomainType.orders).head!) :=
  ⟨rfl,
   rowParse_errors.1 DomainType.fleet 3 [("truck_id", "GI-58A"), ("status", "delayed")]
     (.missingField "driver" 3) rfl,
   rowParse_errors.2.2.2 DomainType.orders (demoSrc DomainType.orders) 0
     (demoSrc DomainType.orders).head! (by decide)⟩

/-- C9: the sign-in handler authenticates exactly the pair
`("admin@runsheet.com", "demo123")`: on it the localStorage keys
`isAuthenticated = "true"` and `userEmail` are written and navigation goes
to `"/"`; on every other input it throws `Error("Invalid credentials")`
without writing any state. -/
theorem signin_exact_credentials :
    ∀ (email password : String),
      (handleSignIn email password
          = .ok ⟨[("isAuthenticated", "true"), ("userEmail", email)], some "/"⟩
        ↔ (email = "admin@runsheet.com" ∧ password = "demo123"))
      ∧ (¬(email = "admin@runsheet.com" ∧ password = "demo123") →
          handleSignIn email password = .error "Invalid credentials") := by
  intro email password
  by_cases h : email = "admin@runsheet.com" ∧ password = "demo123"
  · refine ⟨⟨fun _ => h, fun _ => by simp [handleSignIn, h]⟩, fun hne => absurd h hne⟩
  · refine ⟨⟨fun hok => ?_, fun h2 => absurd h2 h⟩, fun _ => by simp [handleSignIn, h]⟩
    rw [show handleSignIn email password = .error "Invalid credentials" from by
      simp [handleSignIn, h]] at hok
    exact absurd hok (by simp)

/-- Witness for C9: the exact demo pair signs in with the stated effects; a
wrong password yields `Error("Invalid credentials")`. -/
theorem signin_exact_credentials_witness :
    handleSignIn "admin@runsheet.com" "demo123"
      = .ok ⟨[("isAuthenticated", "true"), ("userEmail", "admin@runsheet.com")], some "/"⟩
    ∧ handleSignIn "admin@runsheet.com" "wrong"
      = .error "Invalid credentials" :=
  ⟨(signin_exact_credentials "admin@runsheet.com" "demo123").1.mpr (by decide),
   (signin_exact_credentials "admin@runsheet.com" "wrong").2 (by decide)⟩

/-- C10: `ApiService.request` throws `Error("HTTP error! status: <status>")`
exactly when the response status is outside the 2xx range and only returns
the parsed body on 2xx; the thrown error depends only on the status, so the
error body (including any partial-success breakdown) is discarded; and each
ApiResponse-producing upload method — `uploadTemporalCSV`,
`uploadBatchTemporal`, `uploadSelectiveTemporal`, `resetDemo` — delegates to
`request`, so none of them ever produces a response value from a failed HTTP
response. -/
theorem api_request_error_propagation :
    (∀ resp : HttpResponse, ¬(200 ≤ resp.status ∧ resp.status < 300) →
      request resp = .error ("HTTP error! status: " ++ toString resp.status))
    ∧ (∀ (resp : HttpResponse) (out : String), request resp = .ok out →
        (200 ≤ resp.status ∧ resp.status < 300) ∧ out = resp.body)
    ∧ (∀ (s : Nat) (b1 b2 : String), ¬(200 ≤ s ∧ s < 300) →
        request ⟨s, b1⟩ = request ⟨s, b2⟩)
    ∧ (∀ (tr : Transport) (file dataType batchId operationalTime : String),
        uploadTemporalCSV tr file dataType batchId operationalTime
          = request (tr "/upload/csv"
              (file ++ "|" ++ dataType ++ "|" ++ batchId ++ "|" ++ operationalTime)))
    ∧ (∀ (tr : Transport) (batchId operationalTime : String),
        uploadBatchTemporal tr batchId operationalTime
          = request (tr "/upload/batch" (batchId ++ "|" ++ operationalTime)))
    ∧ (∀ (tr : Transport) (dataTypes : List String) (batchId operationalTime : String),
        uploadSelectiveTemporal tr dataTypes batchId operationalTime
          = request (tr "/upload/selective"
              (String.intercalate "," dataTypes ++ "|" ++ batchId ++ "|" ++ operationalTime)))
    ∧ (∀ tr : Transport, resetDemo tr = request (tr "/demo/reset" "")) := by
  refine ⟨?_, ?_, ?_, fun tr a b c d => rfl, fun tr a b => rfl, fun tr a b c => rfl,
    fun tr => rfl⟩
  · intro resp h
    simp [request, responseOk, h]
  · intro resp out h
    by_cases hok : 200 ≤ resp.status ∧ resp.status < 300
    · refine ⟨hok, ?_⟩
      rw [show request resp = .ok resp.body from by simp [request, responseOk, hok]] at h
      have h2 : (Except.ok resp.body : Except String String) = .ok out := h
      injection h2 with h3
      exact h3.symm
    · rw [show request resp = .error ("HTTP error! status: " ++ toString resp.status) from by
        simp [request, responseOk, hok]] at h
      exact absurd h (by simp)
  · intro s b1 b2 h
    simp [request, responseOk, h]

/-- Witness for C10: a 500 response yields exactly the status error, with
the body discarded. -/
theorem api_request_error_propagation_witness :
    request ⟨500, "partial-breakdown-body"⟩
      = .error ("HTTP error! status: " ++ toString (500 : Nat))
    ∧ request ⟨500, "partial-breakdown-body"⟩ = request ⟨500, "other-body"⟩ :=
  ⟨api_request_error_propagation.1 ⟨500, "partial-breakdown-body"⟩ (by decide),
   api_request_error_propagation.2.2.1 500 "partial-breakdown-body" "other-body" (by decide)⟩

end Runsheet
